import Mathlib

/-!
Verification development for the AppScale ZooKeeper transaction coordinator
(`AppDB/zkappscale/zktransaction.py`).

The coordination-service name space is shallowly embedded: nodes are
association lists from path strings to values, the ZooKeeper sequence
counter is an explicit natural number, timestamps are naturals, and the
`!XG_LIST!`-joined lock-list value of the `lockpath` node is modelled by its
list of segments (lock-root paths never contain the separator, so split and
join are identity on segments).  Fallible calls return `Except`.  Each
definition transcribes the Python function of the same (snake-cased) name.
-/

/-! ### Module constants (zktransaction.py lines 26-103) -/
/-- `TX_TIMEOUT = 30` -/
def TX_TIMEOUT : Nat := 30

/-- `MAX_GROUPS_FOR_XG = 5` -/
def MAX_GROUPS_FOR_XG : Nat := 5

/-- `PATH_SEPARATOR = "/"` -/
def PATH_SEPARATOR : String := "/"

/-- `APPS_PATH = "/appscale/apps"` -/
def APPS_PATH : String := "/appscale/apps"

/-- `APP_TX_PATH = "txids"` -/
def APP_TX_PATH : String := "txids"

/-- `APP_LOCK_PATH = "locks"` -/
def APP_LOCK_PATH : String := "locks"

/-- `APP_TX_PREFIX = "tx"` (renamed to avoid clashing with Lean keywords) -/
def txNodePref : String := "tx"

/-- `TX_UPDATEDKEY_PREFIX = "ukey"` -/
def ukeyPref : String := "ukey"

/-- `TX_LOCK_PATH = "lockpath"` -/
def TX_LOCK_PATH : String := "lockpath"

/-- `TX_BLACKLIST_PATH = "blacklist"` -/
def TX_BLACKLIST_PATH : String := "blacklist"

/-- `TX_VALIDLIST_PATH = "validlist"` -/
def TX_VALIDLIST_PATH : String := "validlist"

/-- `XG_PREFIX = "xg"` -/
def xgNodeName : String := "xg"

/-- `ZKTransaction.DEFAULT_NUM_RETRIES = 5` -/
def DEFAULT_NUM_RETRIES : Nat := 5

/-! ### `urllib.quote_plus` (Python 2 semantics on ASCII input) -/
/-- Upper-case hexadecimal digit for `n < 16`. -/
def hexChar (n : Nat) : Char :=
  if n < 10 then Char.ofNat (48 + n) else Char.ofNat (55 + n)

/-- Characters `urllib` never escapes: letters, digits, `_`, `.`, `-`. -/
def isUrlSafe (c : Char) : Bool :=
  c.isAlpha || c.isDigit || c == '_' || c == '.' || c == '-'

/-- Encoding of one character under `quote_plus`. -/
def quoteChar (c : Char) : List Char :=
  if isUrlSafe c then [c]
  else if c == ' ' then ['+']
  else ['%', hexChar (c.toNat / 16 % 16), hexChar (c.toNat % 16)]

/-- `urllib.quote_plus`. -/
def quotePlus (s : String) : String := ⟨(s.data.map quoteChar).flatten⟩

/-! ### Decimal formatting and parsing

ZooKeeper sequence nodes receive a `"%010d"` suffix; the source parses it
back with `long(path.split("/")[-1].lstrip("tx"))`.  We give a structural
(fuel-based) most-significant-digit-first formatter so that the round trip
is provable for every counter value. -/
/-- Numeric value of a decimal digit character (`ord(c) - ord('0')`). -/
def charVal (c : Char) : Nat := c.toNat - 48

/-- One step of decimal parsing. -/
def decStep (a : Nat) (c : Char) : Nat := 10 * a + charVal c

/-- Digits of `n`, most significant first; `fuel ≥ n` suffices. -/
def natToDigitsAux : Nat → Nat → List Char
  | 0, _ => []
  | f + 1, n => if n = 0 then [] else natToDigitsAux f (n / 10) ++ [Nat.digitChar (n % 10)]

/-- Decimal digits of `n` (empty for 0, which `"%010d"` padding covers). -/
def natToChars (n : Nat) : List Char := natToDigitsAux n n

/-- `"%010d" % n`: `n` in decimal, left-padded with zeros to width 10. -/
def pad10 (n : Nat) : String :=
  ⟨List.replicate (10 - (natToChars n).length) '0' ++ natToChars n⟩

/-- `s.split(PATH_SEPARATOR)[-1]`: the suffix after the last `/`. -/
def lastSegment (s : String) : String :=
  ⟨(s.data.reverse.takeWhile (fun c => c != '/')).reverse⟩

/-- `s.lstrip(APP_TX_PREFIX)`: strip leading characters drawn from `{t, x}`. -/
def lstripTx (s : String) : String :=
  ⟨s.data.dropWhile (fun c => c == 't' || c == 'x')⟩

/-- `long(s)` on an unsigned decimal string; `none` models `ValueError`. -/
def parseLong (s : String) : Option Nat :=
  if s.data.isEmpty then none
  else if s.data.all Char.isDigit then some (s.data.foldl decStep 0)
  else none

/-! ### Path builders (pure functions, zktransaction.py lines 219-351) -/
/-- `get_app_root_path`. -/
def getAppRootPath (appId : String) : String :=
  APPS_PATH ++ PATH_SEPARATOR ++ quotePlus appId

/-- `get_transaction_prefix_path`. -/
def getTransactionPrefixPath (appId : String) : String :=
  getAppRootPath appId ++ PATH_SEPARATOR ++ APP_TX_PATH

/-- `get_txn_path_before_getting_id`. -/
def getTxnPathBeforeGettingId (appId : String) : String :=
  getTransactionPrefixPath appId ++ PATH_SEPARATOR ++ txNodePref

/-- `APP_TX_PREFIX + "%010d" % txid`. -/
def txIdName (txid : Nat) : String := txNodePref ++ pad10 txid

/-- `get_transaction_path`. -/
def getTransactionPath (appId : String) (txid : Nat) : String :=
  getAppRootPath appId ++ PATH_SEPARATOR ++ APP_TX_PATH ++ PATH_SEPARATOR ++ txIdName txid

/-- `get_transaction_lock_list_path`. -/
def getTransactionLockListPath (appId : String) (txid : Nat) : String :=
  getTransactionPath appId txid ++ PATH_SEPARATOR ++ TX_LOCK_PATH

/-- `get_blacklist_root_path`. -/
def getBlacklistRootPath (appId : String) : String :=
  getTransactionPrefixPath appId ++ PATH_SEPARATOR ++ TX_BLACKLIST_PATH

/-- `get_valid_transaction_root_path`. -/
def getValidTransactionRootPath (appId : String) : String :=
  getTransactionPrefixPath appId ++ PATH_SEPARATOR ++ TX_VALIDLIST_PATH

/-- `get_valid_transaction_path`. -/
def getValidTransactionPath (appId : String) (entityKey : String) : String :=
  getValidTransactionRootPath appId ++ PATH_SEPARATOR ++ quotePlus entityKey

/-- `get_lock_root_path`. -/
def getLockRootPath (appId : String) (key : String) : String :=
  getAppRootPath appId ++ PATH_SEPARATOR ++ APP_LOCK_PATH ++ PATH_SEPARATOR ++ quotePlus key

/-- `get_xg_path`. -/
def getXgPath (appId : String) (txid : Nat) : String :=
  getAppRootPath appId ++ PATH_SEPARATOR ++ APP_TX_PATH ++ PATH_SEPARATOR ++
    txIdName txid ++ PATH_SEPARATOR ++ xgNodeName

/-! ### Association-list helpers (the node store) -/
/-- First value bound to key `k`, if any. -/
def alookup {α β : Type} [DecidableEq α] (k : α) : List (α × β) → Option β
  | [] => none
  | p :: r => if p.1 = k then some p.2 else alookup k r

/-- Remove every binding of key `k`. -/
def aremove {α β : Type} [DecidableEq α] (k : α) : List (α × β) → List (α × β)
  | [] => []
  | p :: r => if p.1 = k then aremove k r else p :: aremove k r

/-- Bind `k` to `v`, dropping earlier bindings. -/
def aset {α β : Type} [DecidableEq α] (k : α) (v : β) (l : List (α × β)) : List (α × β) :=
  (k, v) :: aremove k l

/-- Remove every occurrence of `x`. -/
def lrem {α : Type} [DecidableEq α] (x : α) : List α → List α
  | [] => []
  | a :: r => if a = x then lrem x r else a :: lrem x r

/-! ### ID Allocator (create_sequence_node / get_transaction_id, lines 353-448)

The ZooKeeper service state for sequence allocation: the next sequence
counter (ZooKeeper's `cversion`-backed counter is monotone) and the node
store.  `handle.create(path, …, sequence=True)` appends `"%010d" % counter`
to the requested path and bumps the counter. -/
structure SeqState where
  counter : Nat
  store : List (String × String)
deriving DecidableEq, Repr

inductive AllocErr where
  | unableToCreate
  | valueError
  | nodeExists
deriving DecidableEq, Repr

/-- `handle.delete_async(path)` (the deletion itself). -/
def zkDelete (path : String) (s : SeqState) : SeqState :=
  ⟨s.counter, aremove path s.store⟩

/-- `create_sequence_node` (lines 377-417).  Each attempt creates the
sequence node, parses `long(path.split("/")[-1].lstrip("tx"))`, deletes the
node and retries on sequence ID 0, and returns the ID otherwise.  The
`finally: retries_left -= 1` is the fuel argument; a parse failure models
the uncaught `ValueError`.  The `except ZookeeperError: pass` branch is not
exercised here because the modelled service's sequence create always
succeeds; service-failure behaviour is treated on `runWithTimeout`. -/
def createSequenceNode (appId value : String) : Nat → SeqState → Except AllocErr Nat × SeqState
  | 0, s => (.error .unableToCreate, s)
  | fuel + 1, s =>
    let txnIdPath := getTxnPathBeforeGettingId appId ++ pad10 s.counter
    let s1 : SeqState := ⟨s.counter + 1, (txnIdPath, value) :: s.store⟩
    match parseLong (lstripTx (lastSegment txnIdPath)) with
    | none => (.error .valueError, s1)
    | some 0 => createSequenceNode appId value fuel (zkDelete txnIdPath s1)
    | some (k + 1) => (.ok (k + 1), s1)

/-- `create_node` restricted to a healthy service (used by
`get_transaction_id` for the xg marker): `handle.create` without the
sequence flag fails on an existing node, and since the `try` block of
`create_node` has no `except` clause the error escapes at once. -/
def createNodeS (path value : String) (s : SeqState) : Except AllocErr Unit × SeqState :=
  match alookup path s.store with
  | some _ => (.error .nodeExists, s)
  | none => (.ok (), ⟨s.counter, (path, value) :: s.store⟩)

/-- `get_transaction_id` (lines 419-448); `now` stands for `time.time()`, so
`⟨natToChars now⟩` is the `timestamp` string stored in both nodes. -/
def getTransactionId (appId : String) (isXg : Bool) (now : Nat) (s : SeqState) :
    Except AllocErr Nat × SeqState :=
  match createSequenceNode appId ⟨natToChars now⟩ DEFAULT_NUM_RETRIES s with
  | (.error e, s1) => (.error e, s1)
  | (.ok txnId, s1) =>
    if isXg then
      match createNodeS (getXgPath appId txnId) ⟨natToChars now⟩ s1 with
      | (.error e, s2) => (.error e, s2)
      | (.ok _, s2) => (.ok txnId, s2)
    else (.ok txnId, s1)

/-! ### Retry/Timeout Executor (run_with_timeout, lines 885-986)

The wrapped call is modelled as a function from the invocation index (how
many calls were made so far, letting the environment vary over time) and the
argument list to a result.  The trace records the argument list passed to
each invocation and the number of `reestablish_connection` calls. -/
inductive KazooErr where
  | noNode
  | nodeExists
  | connLoss
  | connClosed
  | opTimeout
  | sessionExpired
  | dataInconsistency
  | badArguments
  | systemError
  | zkOther
  | generalExc
  | alarmTimeout
deriving DecidableEq, Repr

inductive RwtErr where
  | txnNoRetries
  | txnTimedOut
  | raised (e : KazooErr)
deriving DecidableEq, Repr

structure RwtTrace where
  calls : List (List String)
  reconnects : Nat
deriving DecidableEq, Repr

/-- `run_with_timeout(timeout_time, num_retries, function, *args)`.

Classification per the source: the alarm timeout becomes a
`ZKTransactionException` with no retry; `NoNodeError`, `NodeExistsError`,
`DataInconsistency`, `BadArgumentsError` and `SystemZookeeperError` are
re-raised; connection loss, connection closed, operation timeout and session
expired reconnect and retry with `num_retries - 1` — and in the
operation-timeout branch the source calls
`self.run_with_timeout(timeout_time, num_retries - 1, function)` WITHOUT
`*args`, so that retry passes the empty argument list; any other
`ZookeeperError` and any other exception retry without reconnecting. -/
def runWithTimeout {α : Type} (f : Nat → List String → Except KazooErr α) :
    Nat → List String → RwtTrace → Except RwtErr α × RwtTrace
  | 0, _, tr => (.error .txnNoRetries, tr)
  | r + 1, args, tr =>
    let tr1 : RwtTrace := ⟨tr.calls ++ [args], tr.reconnects⟩
    match f tr.calls.length args with
    | .ok v => (.ok v, tr1)
    | .error .alarmTimeout => (.error .txnTimedOut, tr1)
    | .error .noNode => (.error (.raised .noNode), tr1)
    | .error .nodeExists => (.error (.raised .nodeExists), tr1)
    | .error .connLoss => runWithTimeout f r args ⟨tr1.calls, tr1.reconnects + 1⟩
    | .error .connClosed => runWithTimeout f r args ⟨tr1.calls, tr1.reconnects + 1⟩
    | .error .opTimeout => runWithTimeout f r [] ⟨tr1.calls, tr1.reconnects + 1⟩
    | .error .sessionExpired => runWithTimeout f r args ⟨tr1.calls, tr1.reconnects + 1⟩
    | .error .dataInconsistency => (.error (.raised .dataInconsistency), tr1)
    | .error .badArguments => (.error (.raised .badArguments), tr1)
    | .error .systemError => (.error (.raised .systemError), tr1)
    | .error .zkOther => runWithTimeout f r args tr1
    | .error .generalExc => runWithTimeout f r args tr1

/-- The wrapped call used for C3: it expects argument list `["/a/path"]`
(calling it with any other arguments is the `TypeError` a Python function
raises when its positional arguments are missing, a generic exception);
its first invocation hits an operation timeout, every later one succeeds. -/
def c3op (attempt : Nat) (args : List String) : Except KazooErr Nat :=
  if args = ["/a/path"] then
    (if attempt = 0 then .error .opTimeout else .ok 42)
  else .error .generalExc

/-- A wrapped call used for C3 whose first invocation loses the connection
and whose later invocations succeed when given their argument. -/
def c3opConnLoss (attempt : Nat) (args : List String) : Except KazooErr Nat :=
  if args = ["/a/path"] then
    (if attempt = 0 then .error .connLoss else .ok 42)
  else .error .generalExc

/-! ### create_node (lines 353-374)

`create_node` loops `while retries_left > 0` around
`run_with_timeout(DEFAULT_ZK_TIMEOUT, DEFAULT_NUM_RETRIES, handle.create,
path, …)` with a `try … finally: retries_left -= 1` and NO `except` clause:
any exception raised by the executor escapes `create_node` immediately, so
the loop body runs at most once and the final
`raise ZKTransactionException(…)` is reachable only when the initial retry
budget is already zero. -/
inductive CreateNodeErr where
  | unableToCreate
  | escaped (e : RwtErr)
deriving DecidableEq, Repr

/-- `create_node(path, value)` with underlying create call `f`. -/
def createNode {α : Type} (f : Nat → List String → Except KazooErr α) (path : String) :
    Nat → RwtTrace → Except CreateNodeErr α × RwtTrace
  | 0, tr => (.error .unableToCreate, tr)
  | _ + 1, tr =>
    match runWithTimeout f DEFAULT_NUM_RETRIES [path] tr with
    | (.ok v, tr1) => (.ok v, tr1)
    | (.error e, tr1) => (.error (.escaped e), tr1)

/-- An underlying create that raises `NodeExistsError` on every attempt
(e.g. the xg marker node already exists). -/
def c8opNodeExists (_ : Nat) (_ : List String) : Except KazooErr Unit :=
  .error .nodeExists

/-- An underlying create that raises a generic `ZookeeperError` on every
attempt. -/
def c8opZkErr (_ : Nat) (_ : List String) : Except KazooErr Unit :=
  .error .zkOther

/-! ### Lock Manager state (per application)

`AppState` is the slice of the name space for one application:
  * `locks`      — lock-root nodes `…/locks/<enc(key)>` with their value
                   (the owning transaction's path);
  * `txNodes`    — transaction IDs whose node `…/txids/tx<NNNNNNNNNN>` exists;
  * `lockLists`  — per transaction, the value of the `lockpath` child as its
                   list of `!XG_LIST!`-separated segments;
  * `xgs`        — transactions whose `xg` child exists;
  * `blacklist`  — children of `…/txids/blacklist`;
  * `ukeys`      — per transaction, the `ukey<seq>` children, each with its
                   node name and its `<enc(key)>/<target_txid>` value held
                   structurally (the key before the slash, the target after);
  * `validlist`  — children of `…/txids/validlist` keyed by full path.

The Executor wrapper around each call is modelled as the direct call (its
retry behaviour is verified separately on `runWithTimeout`). -/
structure UKeyEntry where
  name : String
  key : String
  target : Nat
deriving DecidableEq, Repr

structure AppState where
  locks : List (String × String)
  txNodes : List Nat
  lockLists : List (Nat × List String)
  xgs : List Nat
  blacklist : List Nat
  ukeys : List (Nat × List UKeyEntry)
  validlist : List (String × Nat)
deriving DecidableEq, Repr

inductive ZKTErr where
  | timedOut
  | notValid
  | alreadyHeld
  | nonXgViolation
  | tooManyGroups
  | unableToRelease
  | noNode
deriving DecidableEq, Repr

/-- `is_blacklisted` (lines 718-740): membership of `str(txid)` among the
blacklist children (the lazy creation of the blacklist root is invisible
here). -/
def isBlacklisted (s : AppState) (txid : Nat) : Bool := txid ∈ s.blacklist

/-- `check_transaction` (lines 450-473): blacklist first, then existence. -/
def checkTransaction (s : AppState) (txid : Nat) : Except ZKTErr Bool :=
  if txid ∈ s.blacklist then .error .timedOut
  else if txid ∈ s.txNodes then .ok true
  else .error .notValid

/-- `acquire_additional_lock` (lines 499-573).  Creating the lock-root node
fails with `NodeExistsError` when it is present (after the best-effort
diagnostic read of the current owner, which does not mutate anything) and
the method raises "already another transaction using … lock".  On success
the created path (`lockrootpath`) is appended: with `create=True` the
`lockpath` child is created by `create_async` (an existing node makes the
ignored async create a no-op); with `create=False` the current list is read
(`NoNodeError` escapes when it is missing), its length is checked against
`MAX_GROUPS_FOR_XG`, and the new list is written back. -/
def acquireAdditionalLock (appId : String) (s : AppState) (txid : Nat) (entityKey : String)
    (create : Bool) : Except ZKTErr Bool × AppState :=
  match alookup (getLockRootPath appId entityKey) s.locks with
  | some _ => (.error .alreadyHeld, s)
  | none =>
    let s1 : AppState := { s with locks :=
      (getLockRootPath appId entityKey, getTransactionPath appId txid) :: s.locks }
    if create then
      match alookup txid s1.lockLists with
      | some _ => (.ok true, s1)
      | none =>
        let ll := aset txid [getLockRootPath appId entityKey] s1.lockLists
        (.ok true, { s1 with lockLists := ll })
    else
      match alookup txid s1.lockLists with
      | none => (.error .noNode, s1)
      | some lockList =>
        if MAX_GROUPS_FOR_XG ≤ lockList.length then (.error .tooManyGroups, s1)
        else
          let ll := aset txid (lockList ++ [getLockRootPath appId entityKey]) s1.lockLists
          (.ok true, { s1 with lockLists := ll })

/-- `acquire_lock` (lines 593-632).  `is_in_transaction` raises "timed out"
for a blacklisted transaction and otherwise reports whether the `lockpath`
child exists; when it does, its value is read and the requested lock root is
looked up in the list: present means idempotent success, absent means
`acquire_additional_lock(create=False)` for an XG transaction and the
"can not lock different root entity in non-cross-group transaction" error
otherwise.  Without a `lockpath` child, `acquire_additional_lock(create=True)`. -/
def acquireLock (appId : String) (s : AppState) (txid : Nat) (entityKey : String) :
    Except ZKTErr Bool × AppState :=
  if txid ∈ s.blacklist then (.error .timedOut, s)
  else
    match alookup txid s.lockLists with
    | some lockList =>
      if getLockRootPath appId entityKey ∈ lockList then (.ok true, s)
      else if txid ∈ s.xgs then acquireAdditionalLock appId s txid entityKey false
      else (.error .nonXgViolation, s)
    | none => acquireAdditionalLock appId s txid entityKey true

/-- The children of the transaction node, as `handle.get_children(txpath)`
would list them: the `lockpath` child when present, the `xg` child when
present, and the `ukey<seq>` children. -/
def childNames (s : AppState) (txid : Nat) : List String :=
  (match alookup txid s.lockLists with
   | some _ => [TX_LOCK_PATH]
   | none => []) ++
  (if txid ∈ s.xgs then [xgNodeName] else []) ++
  ((alookup txid s.ukeys).getD []).map (fun u => u.name)

/-- `handle.delete_async(txpath/name)` for one child of the transaction
node, dispatching on which child the name denotes. -/
def deleteChild (s : AppState) (txid : Nat) (name : String) : AppState :=
  if name = TX_LOCK_PATH then { s with lockLists := aremove txid s.lockLists }
  else if name = xgNodeName then { s with xgs := lrem txid s.xgs }
  else
    let uk := aset txid (((alookup txid s.ukeys).getD []).filter (fun u => u.name != name)) s.ukeys
    { s with ukeys := uk }

/-- `handle.delete_async(txpath)`: deleting a node that still has children
fails with `NotEmptyError`, which the ignored async future swallows. -/
def tryDeleteTxNode (s : AppState) (txid : Nat) : AppState :=
  if childNames s txid = [] then { s with txNodes := lrem txid s.txNodes } else s

/-- `release_lock` (lines 664-716).  `check_transaction` first; then the
`lockpath` value is read — on `NoNodeError` the method returns `True` for a
non-blacklisted transaction and raises otherwise; then each listed lock
root, the `lockpath` child, the `xg` child (when `is_xg`), every remaining
child and finally the transaction node are deleted. -/
def releaseLock (_appId : String) (s : AppState) (txid : Nat) :
    Except ZKTErr Bool × AppState :=
  match checkTransaction s txid with
  | .error e => (.error e, s)
  | .ok _ =>
    match alookup txid s.lockLists with
    | none =>
      if txid ∈ s.blacklist then (.error .unableToRelease, s) else (.ok true, s)
    | some lockList =>
      let s1 : AppState := { s with locks := lockList.foldl (fun lk p => aremove p lk) s.locks }
      let s2 : AppState := { s1 with lockLists := aremove txid s1.lockLists }
      let s3 : AppState := if txid ∈ s2.xgs then { s2 with xgs := lrem txid s2.xgs } else s2
      let s4 : AppState := (childNames s3 txid).foldl (fun st c => deleteChild st txid c) s3
      (.ok true, { s4 with txNodes := lrem txid s4.txNodes })

/-- `register_updated_key` (lines 761-800). -/
def registerUpdatedKey (appId : String) (s : AppState) (currentTxid targetTxid : Nat)
    (entityKey : String) : Except ZKTErr Bool × AppState :=
  match alookup (getValidTransactionPath appId entityKey) s.validlist with
  | some _ =>
    let vl := aset (getValidTransactionPath appId entityKey) targetTxid s.validlist
    (.ok true, { s with validlist := vl })
  | none =>
    if currentTxid ∈ s.txNodes then
      let old := (alookup currentTxid s.ukeys).getD []
      let uk := aset currentTxid
        (old ++ [⟨ukeyPref ++ pad10 old.length, entityKey, targetTxid⟩]) s.ukeys
      (.ok true, { s with ukeys := uk })
    else (.error .notValid, s)

/-! ### notify_failed_transaction (lines 802-872)

Returned alongside the post-state is the trace of `delete_async` calls in
issue order.  The final loop transcribes the source exactly: for each child
of the transaction node it issues `delete_async(txpath/item)` AND
`delete_async(txpath)` — the parent delete sits inside the loop. -/
def deleteChildrenLoop (appId : String) (txid : Nat) :
    List String → AppState → AppState × List String
  | [], s => (s, [])
  | c :: rest, s =>
    let s1 := deleteChild s txid c
    let s2 := tryDeleteTxNode s1 txid
    let r := deleteChildrenLoop appId txid rest s2
    (r.1, (getTransactionPath appId txid ++ PATH_SEPARATOR ++ c) ::
      getTransactionPath appId txid :: r.2)

/-- Phase 1 of `notify_failed_transaction`: when the lock list is
non-empty, add the transaction to the blacklist (async create, a duplicate
is swallowed) and copy each `ukey` child's `key → target` into `validlist`
(async create, an existing anchor is kept). -/
def nfPhase1 (appId : String) (s : AppState) (txid : Nat) : AppState :=
  if ((alookup txid s.lockLists).getD []).isEmpty then s
  else
    let sB : AppState :=
      { s with blacklist := if txid ∈ s.blacklist then s.blacklist else txid :: s.blacklist }
    let vl := ((alookup txid sB.ukeys).getD []).foldl (fun acc u =>
      match alookup (getValidTransactionPath appId u.key) acc with
      | some _ => acc
      | none => (getValidTransactionPath appId u.key, u.target) :: acc) sB.validlist
    { sB with validlist := vl }

/-- Phase 2: `delete_async` of every lock root listed in `lockpath`
(the per-transaction lock list is unchanged by phase 1). -/
def nfPhase2 (s : AppState) (txid : Nat) : AppState :=
  let lk := ((alookup txid s.lockLists).getD []).foldl (fun lk p => aremove p lk) s.locks
  { s with locks := lk }

/-- Phase 3: `if is_xg: delete_async(xg_path)`, with its delete trace. -/
def nfPhase3 (appId : String) (s : AppState) (txid : Nat) : AppState × List String :=
  if txid ∈ s.xgs then ({ s with xgs := lrem txid s.xgs }, [getXgPath appId txid])
  else (s, [])

/-- `notify_failed_transaction(app_id, txid)`.  Reads `lockpath` (a missing
node gives the empty lock list), runs the blacklist/validlist phase, deletes
the listed lock roots, deletes the `xg` child when `is_xg`, and runs the
children loop above.  The returned trace lists every `delete_async` target
in issue order. -/
def notifyFailedTransaction (appId : String) (s : AppState) (txid : Nat) :
    AppState × List String :=
  let sr3 := nfPhase3 appId (nfPhase2 (nfPhase1 appId s txid) txid) txid
  let r := deleteChildrenLoop appId txid (childNames sr3.1 txid) sr3.1
  (r.1, (alookup txid s.lockLists).getD [] ++ sr3.2 ++ r.2)

/-- A transaction node (id 7) with two children — `lockpath` holding one
lock-root path, and one `ukey` child — whose lock root exists and points at
it.  The failing input for C4. -/
def c4state : AppState :=
  ⟨[(getLockRootPath "guestbook" "k1", getTransactionPath "guestbook" 7)], [7],
    [(7, [getLockRootPath "guestbook" "k1"])], [], [],
    [(7, [⟨"ukey0000000000", "k1", 3⟩])], []⟩

/-! ### Garbage collection sweep (execute_garbage_collection, lines 1126-1170)

The sweep over one application's `…/txids` children is modelled as the list
of `notify_failed_transaction` calls it makes, given the children with their
creation-timestamp values and the current time. -/
/-- `re.match("^" + APP_TX_PREFIX + '\d', name)`: the name starts with
`"tx"` followed by a digit. -/
def matchesTxRe (name : String) : Bool :=
  match name.data with
  | 't' :: 'x' :: c :: _ => c.isDigit
  | _ => false

inductive GCErr where
  | valueError
deriving DecidableEq, Repr

/-- `execute_garbage_collection(app_id, app_path)`: skip children that do
not match the regex; for matching children whose timestamp satisfies
`txtime + TX_TIMEOUT < now`, call
`notify_failed_transaction(app_id, long(name.lstrip("tx")))` — a name whose
stripped remainder `long()` cannot parse raises `ValueError` and aborts the
sweep. -/
def executeGarbageCollection (children : List (String × Nat)) (now : Nat) :
    Except GCErr (List Nat) :=
  match children with
  | [] => .ok []
  | (name, ts) :: rest =>
    if matchesTxRe name then
      if ts + TX_TIMEOUT < now then
        match parseLong (lstripTx name) with
        | none => .error .valueError
        | some id =>
          match executeGarbageCollection rest now with
          | .ok l => .ok (id :: l)
          | .error e => .error e
      else executeGarbageCollection rest now
    else executeGarbageCollection rest now

/-- A `…/txids` child name of the shape the coordinator itself creates:
`"tx"` followed by a non-empty run of decimal digits. -/
def wellFormedTxName (n : String) : Bool :=
  match n.data with
  | 't' :: 'x' :: ds => !ds.isEmpty && ds.all Char.isDigit
  | _ => false

/-! ### The lockpath bound invariant (C2)

`lockpath` is modelled by its list of `!XG_LIST!` segments, so "the value
splits into at most `MAX_GROUPS_FOR_XG` lock-root paths, exactly one for a
non-XG transaction" is a bound on the stored lists. -/
/-- P4 as a decidable predicate on a state: every `lockpath` value has at
most `MAX_GROUPS_FOR_XG` entries, and exactly one for a transaction without
an `xg` child. -/
def lockListInv (s : AppState) : Bool :=
  s.lockLists.all (fun p => decide (p.2.length ≤ MAX_GROUPS_FOR_XG) &&
    (decide (p.1 ∈ s.xgs) || decide (p.2.length = 1)))

/-- The entry-wise reading of `lockListInv`. -/
def lockEntriesOk (xgs : List Nat) (lockLists : List (Nat × List String)) : Prop :=
  ∀ q ∈ lockLists, q.2.length ≤ MAX_GROUPS_FOR_XG ∧ (q.1 ∈ xgs ∨ q.2.length = 1)

/-- No `lockpath` entry belongs to `txid`. -/
def noEntriesFor (txid : Nat) (lockLists : List (Nat × List String)) : Prop :=
  ∀ q ∈ lockLists, q.1 ≠ txid

/-- `get_transaction_id` at the granularity of one application's subtree:
a fresh transaction node appears and, for `is_xg`, its `xg` child. -/
def applyBeginTx (s : AppState) (txid : Nat) (isXg : Bool) : AppState :=
  { s with txNodes := txid :: s.txNodes, xgs := if isXg then txid :: s.xgs else s.xgs }

/-- The empty application subtree. -/
def initAppState : AppState := ⟨[], [], [], [], [], [], []⟩

/-- States reachable through the coordinator's public operations on one
application, starting from the empty subtree. -/
inductive Reachable (appId : String) : AppState → Prop
  | init : Reachable appId initAppState
  | beginTx (s : AppState) (txid : Nat) (isXg : Bool) :
      Reachable appId s → Reachable appId (applyBeginTx s txid isXg)
  | acquire (s : AppState) (txid : Nat) (key : String) :
      Reachable appId s → Reachable appId (acquireLock appId s txid key).2
  | release (s : AppState) (txid : Nat) :
      Reachable appId s → Reachable appId (releaseLock appId s txid).2
  | register (s : AppState) (cur tgt : Nat) (key : String) :
      Reachable appId s → Reachable appId (registerUpdatedKey appId s cur tgt key).2
  | notify (s : AppState) (txid : Nat) :
      Reachable appId s → Reachable appId (notifyFailedTransaction appId s txid).1

/-- XG scenario start: one XG transaction (id 1), nothing else. -/
def c2s0 : AppState := applyBeginTx initAppState 1 true

def c2s1 : AppState := (acquireLock "app" c2s0 1 "k1").2

def c2s2 : AppState := (acquireLock "app" c2s1 1 "k2").2

def c2s3 : AppState := (acquireLock "app" c2s2 1 "k3").2

def c2s4 : AppState := (acquireLock "app" c2s3 1 "k4").2

def c2s5 : AppState := (acquireLock "app" c2s4 1 "k5").2

/-! ### Theorems -/

/-! ### Basic lemmas about the helpers -/
theorem mem_aremove {α β : Type} [DecidableEq α] {k : α} {l : List (α × β)} {x : α × β} :
    x ∈ aremove k l → x ∈ l ∧ x.1 ≠ k := by
  induction l with
  | nil => intro h; simp [aremove] at h
  | cons p r ih =>
    intro h
    by_cases hp : p.1 = k
    · rw [aremove, if_pos hp] at h
      exact ⟨List.mem_cons_of_mem _ (ih h).1, (ih h).2⟩
    · rw [aremove, if_neg hp] at h
      rcases List.mem_cons.mp h with h | h
      · exact ⟨by simp [h], by simpa [h] using hp⟩
      · exact ⟨List.mem_cons_of_mem _ (ih h).1, (ih h).2⟩

theorem mem_aset {α β : Type} [DecidableEq α] {k : α} {v : β} {l : List (α × β)} {x : α × β}
    (h : x ∈ aset k v l) : x = (k, v) ∨ (x ∈ l ∧ x.1 ≠ k) := by
  rcases List.mem_cons.mp h with h | h
  · exact Or.inl h
  · exact Or.inr (mem_aremove h)

theorem alookup_eq_none {α β : Type} [DecidableEq α] {k : α} {l : List (α × β)} :
    alookup k l = none → ∀ x ∈ l, x.1 ≠ k := by
  induction l with
  | nil => intro _ x hx; simp at hx
  | cons p r ih =>
    intro h x hx
    by_cases hp : p.1 = k
    · rw [alookup, if_pos hp] at h; exact absurd h (by simp)
    · rw [alookup, if_neg hp] at h
      rcases List.mem_cons.mp hx with hx | hx
      · simpa [hx] using hp
      · exact ih h x hx

theorem mem_lrem {α : Type} [DecidableEq α] {x k : α} {l : List α} :
    x ∈ lrem k l ↔ x ∈ l ∧ x ≠ k := by
  induction l with
  | nil => simp [lrem]
  | cons a r ih =>
    by_cases ha : a = k
    · rw [lrem, if_pos ha]
      rw [ih]
      constructor
      · rintro ⟨h, hne⟩; exact ⟨List.mem_cons_of_mem _ h, hne⟩
      · rintro ⟨h, hne⟩
        rcases List.mem_cons.mp h with h | h
        · exact absurd (h.trans ha) hne
        · exact ⟨h, hne⟩
    · rw [lrem, if_neg ha]
      constructor
      · intro h
        rcases List.mem_cons.mp h with h | h
        · exact ⟨by simp [h], by simpa [h] using ha⟩
        · exact ⟨List.mem_cons_of_mem _ (ih.mp h).1, (ih.mp h).2⟩
      · rintro ⟨h, hne⟩
        rcases List.mem_cons.mp h with h | h
        · exact h ▸ List.mem_cons_self _ _
        · exact List.mem_cons_of_mem _ (ih.mpr ⟨h, hne⟩)

theorem alookup_aremove_self {α β : Type} [DecidableEq α] (k : α) (l : List (α × β)) :
    alookup k (aremove k l) = none := by
  induction l with
  | nil => rfl
  | cons p r ih =>
    by_cases hp : p.1 = k
    · simpa [aremove, if_pos hp] using ih
    · simpa [aremove, alookup, if_neg hp] using ih

/-! ### Round trip: parsing the `"%010d"` sequence suffix recovers the counter -/
theorem charVal_digitChar : ∀ d : Nat, d < 10 → charVal (Nat.digitChar d) = d := by decide

theorem digitChar_isDigit : ∀ d : Nat, d < 10 → (Nat.digitChar d).isDigit = true := by decide

theorem isDigit_not_tx {c : Char} (h : c.isDigit = true) :
    (c == 't' || c == 'x') = false := by
  cases h1 : c == 't' with
  | true =>
    have hc : c = 't' := eq_of_beq h1
    subst hc; exact absurd h (by decide)
  | false =>
    cases h2 : c == 'x' with
    | true =>
      have hc : c = 'x' := eq_of_beq h2
      subst hc; exact absurd h (by decide)
    | false => simp [h1, h2]

theorem isDigit_ne_slash {c : Char} (h : c.isDigit = true) : (c != '/') = true := by
  cases h1 : c == '/' with
  | true =>
    have hc : c = '/' := eq_of_beq h1
    subst hc; exact absurd h (by decide)
  | false => simp [bne, h1]

theorem natToDigitsAux_digits : ∀ (f n : Nat), ∀ c ∈ natToDigitsAux f n, c.isDigit = true := by
  intro f
  induction f with
  | zero => intro n c hc; simp [natToDigitsAux] at hc
  | succ f ih =>
    intro n c hc
    rw [natToDigitsAux] at hc
    by_cases hn : n = 0
    · simp [hn] at hc
    · rw [if_neg hn] at hc
      rcases List.mem_append.mp hc with hc | hc
      · exact ih _ c hc
      · have : c = Nat.digitChar (n % 10) := by simpa using hc
        subst this
        exact digitChar_isDigit _ (Nat.mod_lt _ (by omega))

theorem natToChars_digits : ∀ n, ∀ c ∈ natToChars n, c.isDigit = true := by
  intro n; exact natToDigitsAux_digits n n

theorem pad10_digits (n : Nat) : ∀ c ∈ (pad10 n).data, c.isDigit = true := by
  intro c hc
  rcases List.mem_append.mp hc with hc | hc
  · have : c = '0' := List.eq_of_mem_replicate hc
    subst this; decide
  · exact natToChars_digits n c hc

theorem pad10_ne_nil (n : Nat) : (pad10 n).data ≠ [] := by
  show List.replicate (10 - (natToChars n).length) '0' ++ natToChars n ≠ []
  intro h
  rcases List.append_eq_nil.mp h with ⟨h1, h2⟩
  rw [h2] at h1
  simp [List.replicate] at h1

theorem foldl_natToDigitsAux : ∀ (f n a : Nat), n ≤ f →
    (natToDigitsAux f n).foldl decStep a = a * 10 ^ (natToDigitsAux f n).length + n := by
  intro f
  induction f with
  | zero =>
    intro n a h
    have : n = 0 := Nat.le_zero.mp h
    subst this; simp [natToDigitsAux]
  | succ f ih =>
    intro n a h
    rw [natToDigitsAux]
    by_cases hn : n = 0
    · subst hn; simp
    · rw [if_neg hn]
      have hdiv : n / 10 ≤ f := by
        have : n / 10 < n := Nat.div_lt_self (by omega) (by omega)
        omega
      rw [List.foldl_append, List.length_append]
      rw [ih (n / 10) a hdiv]
      simp only [List.foldl_cons, List.foldl_nil, List.length_cons, List.length_nil]
      rw [decStep, charVal_digitChar _ (Nat.mod_lt _ (by omega))]
      have hmod := Nat.div_add_mod n 10
      ring_nf
      omega

theorem takeWhile_append_stop {p : Char → Bool} (l r : List Char) (c0 : Char)
    (hl : ∀ c ∈ l, p c = true) (h0 : p c0 = false) :
    (l ++ c0 :: r).takeWhile p = l := by
  induction l with
  | nil => simp [List.takeWhile, h0]
  | cons a t ih =>
    have ha : p a = true := hl a (by simp)
    show List.takeWhile p (a :: (t ++ c0 :: r)) = a :: t
    simp only [List.takeWhile, ha]
    exact congrArg (List.cons a) (ih (fun c hc => hl c (by simp [hc])))

theorem dropWhile_append_all {p : Char → Bool} (l r : List Char)
    (hl : ∀ c ∈ l, p c = true) :
    (l ++ r).dropWhile p = r.dropWhile p := by
  induction l with
  | nil => simp
  | cons a t ih =>
    have ha : p a = true := hl a (by simp)
    simp only [List.cons_append, List.dropWhile, ha]
    exact ih (fun c hc => hl c (by simp [hc]))

theorem data_append (a b : String) : (a ++ b).data = a.data ++ b.data := rfl

theorem str_ext {a b : String} (h : a.data = b.data) : a = b := congrArg String.mk h

/-- `path.split("/")[-1]` on `a ++ "/" ++ b` is `b` when `b` has no slash. -/
theorem lastSegment_concat (a b : String) (hb : ∀ c ∈ b.data, (c != '/') = true) :
    lastSegment ⟨a.data ++ '/' :: b.data⟩ = b := by
  apply str_ext
  show ((a.data ++ '/' :: b.data).reverse.takeWhile (fun c => c != '/')).reverse = b.data
  rw [List.reverse_append, List.reverse_cons, List.append_assoc, List.singleton_append]
  rw [takeWhile_append_stop _ _ '/' (fun c hc => hb c (List.mem_reverse.mp hc)) (by decide)]
  exact List.reverse_reverse _

/-- The sequence-node suffix assigned for counter `c` parses back to `c`:
`long(("…/txids/tx" + "%010d" % c).split("/")[-1].lstrip("tx")) = c`. -/
theorem parse_seq_name (appId : String) (c : Nat) :
    parseLong (lstripTx (lastSegment (getTxnPathBeforeGettingId appId ++ pad10 c))) = some c := by
  have hdata : (getTxnPathBeforeGettingId appId ++ pad10 c).data =
      (getTransactionPrefixPath appId).data ++ '/' :: ('t' :: 'x' :: (pad10 c).data) := by
    rw [getTxnPathBeforeGettingId]
    rw [data_append, data_append, data_append]
    rw [show PATH_SEPARATOR.data = ['/'] from rfl, show txNodePref.data = ['t', 'x'] from rfl]
    simp
  have hshape : getTxnPathBeforeGettingId appId ++ pad10 c =
      ⟨(getTransactionPrefixPath appId).data ++ '/' :: ('t' :: 'x' :: (pad10 c).data)⟩ :=
    str_ext hdata
  rw [hshape]
  have hb : ∀ ch ∈ ('t' :: 'x' :: (pad10 c).data), (ch != '/') = true := by
    intro ch hch
    rcases List.mem_cons.mp hch with h | hch
    · subst h; decide
    rcases List.mem_cons.mp hch with h | hch
    · subst h; decide
    · exact isDigit_ne_slash (pad10_digits c ch hch)
  have hlast := lastSegment_concat (getTransactionPrefixPath appId)
      ⟨'t' :: 'x' :: (pad10 c).data⟩ hb
  rw [hlast]
  -- lstrip("tx") drops exactly the two leading characters
  have hdrop : lstripTx ⟨'t' :: 'x' :: (pad10 c).data⟩ = ⟨(pad10 c).data⟩ := by
    apply str_ext
    show ('t' :: 'x' :: (pad10 c).data).dropWhile (fun ch => ch == 't' || ch == 'x') =
      (pad10 c).data
    rw [show ('t' :: 'x' :: (pad10 c).data) = ['t', 'x'] ++ (pad10 c).data from rfl]
    rw [dropWhile_append_all _ _ (by intro ch hch; fin_cases hch <;> decide)]
    cases hp : (pad10 c).data with
    | nil => exact absurd hp (pad10_ne_nil c)
    | cons z rest =>
      have hz : z.isDigit = true := pad10_digits c z (by rw [hp]; simp)
      simp [List.dropWhile, isDigit_not_tx hz]
  rw [hdrop]
  -- the digit string parses to c
  show parseLong ⟨List.replicate (10 - (natToChars c).length) '0' ++ natToChars c⟩ = some c
  rw [parseLong]
  have hne : ¬ (List.replicate (10 - (natToChars c).length) '0' ++ natToChars c).isEmpty = true := by
    rw [List.isEmpty_iff]
    exact pad10_ne_nil c
  rw [if_neg hne]
  have hall : (List.replicate (10 - (natToChars c).length) '0' ++ natToChars c).all
      Char.isDigit = true := by
    rw [List.all_eq_true]
    exact pad10_digits c
  rw [if_pos hall]
  congr 1
  show (List.replicate (10 - (natToChars c).length) '0' ++ natToChars c).foldl decStep 0 = c
  rw [List.foldl_append]
  have hzeros : ∀ k, (List.replicate k '0').foldl decStep 0 = 0 := by
    intro k
    induction k with
    | zero => rfl
    | succ k ih => simpa [List.replicate, List.foldl_cons, decStep, charVal] using ih
  rw [hzeros]
  have := foldl_natToDigitsAux c c 0 (Nat.le_refl c)
  simpa [natToChars] using this

theorem createSequenceNode_ok : ∀ (fuel : Nat) (appId value : String) (s : SeqState)
    (id : Nat) (s' : SeqState), createSequenceNode appId value fuel s = (.ok id, s') →
    s.counter ≤ id ∧ 1 ≤ id ∧ s'.counter = id + 1 := by
  intro fuel
  induction fuel with
  | zero =>
    intro appId value s id s' h
    simp [createSequenceNode] at h
  | succ f ih =>
    intro appId value s id s' h
    rw [createSequenceNode] at h
    rw [parse_seq_name appId s.counter] at h
    cases hc : s.counter with
    | zero =>
      rw [hc] at h
      have := ih appId value _ id s' h
      refine ⟨by omega, this.2.1, this.2.2⟩
    | succ k =>
      rw [hc] at h
      have h1 : (Except.ok (k + 1) : Except AllocErr Nat) = .ok id := congrArg Prod.fst h
      have h2 := congrArg Prod.snd h
      injection h1 with hid
      refine ⟨by omega, by omega, ?_⟩
      have h2' : (⟨k + 1 + 1,
          (getTxnPathBeforeGettingId appId ++ pad10 (k + 1), value) :: s.store⟩ :
          SeqState) = s' := h2
      rw [← h2']
      show k + 1 + 1 = id + 1
      omega

theorem strAppend_left_cancel {a b c : String} (h : a ++ b = a ++ c) : b = c := by
  apply str_ext
  have hd := congrArg String.data h
  rw [data_append, data_append] at hd
  exact List.append_cancel_left hd

theorem createNodeS_counter (path value : String) (s : SeqState) :
    (createNodeS path value s).2.counter = s.counter := by
  rw [createNodeS]
  cases alookup path s.store <;> rfl

theorem getTransactionId_ok (appId : String) (isXg : Bool) (now : Nat) (s : SeqState)
    (id : Nat) (s' : SeqState) (h : getTransactionId appId isXg now s = (.ok id, s')) :
    s.counter ≤ id ∧ 1 ≤ id ∧ s'.counter = id + 1 := by
  unfold getTransactionId at h
  split at h
  · exact absurd (congrArg Prod.fst h) (by simp)
  · rename_i txnId s1 heq
    have hcore := createSequenceNode_ok DEFAULT_NUM_RETRIES appId _ s txnId s1 heq
    split at h
    · -- isXg = true
      split at h
      · exact absurd (congrArg Prod.fst h) (by simp)
      · rename_i u s2 heq2
        have h1 : (Except.ok txnId : Except AllocErr Nat) = .ok id := congrArg Prod.fst h
        have h2 : s2 = s' := congrArg Prod.snd h
        injection h1 with hid
        have hcnt : s2.counter = s1.counter := by
          have hh := createNodeS_counter (getXgPath appId txnId) ⟨natToChars now⟩ s1
          rw [heq2] at hh
          exact hh
        subst hid
        exact ⟨hcore.1, hcore.2.1, by rw [← h2, hcnt, hcore.2.2]⟩
    · -- isXg = false
      have h1 : (Except.ok txnId : Except AllocErr Nat) = .ok id := congrArg Prod.fst h
      have h2 : s1 = s' := congrArg Prod.snd h
      injection h1 with hid
      subst hid
      exact ⟨hcore.1, hcore.2.1, by rw [← h2, hcore.2.2]⟩

theorem createSequenceNode_zero (appId value : String) (st : List (String × String)) :
    createSequenceNode appId value DEFAULT_NUM_RETRIES ⟨0, st⟩ =
      (.ok 1, ⟨2, (getTxnPathBeforeGettingId appId ++ pad10 1, value) ::
        aremove (getTxnPathBeforeGettingId appId ++ pad10 0)
          ((getTxnPathBeforeGettingId appId ++ pad10 0, value) :: st)⟩) := by
  rw [show DEFAULT_NUM_RETRIES = 4 + 1 from rfl, createSequenceNode]
  rw [show (⟨0, st⟩ : SeqState).counter = 0 from rfl]
  rw [parse_seq_name]
  rw [show (4 : Nat) = 3 + 1 from rfl, createSequenceNode]
  rw [show (zkDelete (getTxnPathBeforeGettingId appId ++ pad10 0)
      ⟨0 + 1, (getTxnPathBeforeGettingId appId ++ pad10 0, value) :: st⟩).counter = 1 from rfl]
  rw [parse_seq_name]
  rfl

/-- C1: transaction IDs issued by `get_transaction_id` are strictly
monotonically increasing across successive calls and never 0 (every returned
ID is at least 1); and whenever the coordination service assigns sequence
ID 0 (counter 0), `create_sequence_node` deletes that node and retries, so
the call returns ID 1 and the ID-0 node is absent from the final store. -/
theorem c1_transaction_ids :
    (∀ (appId : String) (isXg : Bool) (now : Nat) (s : SeqState) (id : Nat) (s' : SeqState),
        getTransactionId appId isXg now s = (.ok id, s') → 1 ≤ id) ∧
    (∀ (appId : String) (xg1 xg2 : Bool) (n1 n2 : Nat) (s : SeqState) (id1 : Nat)
        (s1 : SeqState) (id2 : Nat) (s2 : SeqState),
        getTransactionId appId xg1 n1 s = (.ok id1, s1) →
        getTransactionId appId xg2 n2 s1 = (.ok id2, s2) → id1 < id2) ∧
    (∀ (appId value : String) (st : List (String × String)),
        (createSequenceNode appId value DEFAULT_NUM_RETRIES ⟨0, st⟩).1 = .ok 1 ∧
        alookup (getTxnPathBeforeGettingId appId ++ pad10 0)
          (createSequenceNode appId value DEFAULT_NUM_RETRIES ⟨0, st⟩).2.store = none) := by
  refine ⟨?_, ?_, ?_⟩
  · intro appId isXg now s id s' h
    exact (getTransactionId_ok appId isXg now s id s' h).2.1
  · intro appId xg1 xg2 n1 n2 s id1 s1 id2 s2 h1 h2
    have a1 := getTransactionId_ok appId xg1 n1 s id1 s1 h1
    have a2 := getTransactionId_ok appId xg2 n2 s1 id2 s2 h2
    omega
  · intro appId value st
    rw [createSequenceNode_zero]
    refine ⟨rfl, ?_⟩
    show alookup (getTxnPathBeforeGettingId appId ++ pad10 0)
      ((getTxnPathBeforeGettingId appId ++ pad10 1, value) ::
        aremove (getTxnPathBeforeGettingId appId ++ pad10 0)
          ((getTxnPathBeforeGettingId appId ++ pad10 0, value) :: st)) = none
    rw [alookup]
    have hne : ¬ (getTxnPathBeforeGettingId appId ++ pad10 1 =
        getTxnPathBeforeGettingId appId ++ pad10 0) := by
      intro hcontra
      have : pad10 1 = pad10 0 := strAppend_left_cancel hcontra
      exact absurd this (by decide)
    rw [if_neg hne]
    exact alookup_aremove_self _ _

/-- Witness for C1 at concrete inputs: two successive calls from counter 1
return IDs 1 then 2, and from counter 0 the allocator skips ID 0. -/
theorem c1_transaction_ids_witness :
    (1 : Nat) ≤ 1 ∧ (1 : Nat) < 2 ∧
      ((createSequenceNode "guestbook" "" DEFAULT_NUM_RETRIES ⟨0, []⟩).1 = .ok 1 ∧
        alookup (getTxnPathBeforeGettingId "guestbook" ++ pad10 0)
          (createSequenceNode "guestbook" "" DEFAULT_NUM_RETRIES ⟨0, []⟩).2.store = none) := by
  refine ⟨?_, ?_, ?_⟩
  · exact c1_transaction_ids.1 "guestbook" false 0 ⟨1, []⟩ 1
      (getTransactionId "guestbook" false 0 ⟨1, []⟩).2 rfl
  · exact c1_transaction_ids.2.1 "guestbook" false false 0 0 ⟨1, []⟩ 1
      (getTransactionId "guestbook" false 0 ⟨1, []⟩).2 2
      (getTransactionId "guestbook" false 0 (getTransactionId "guestbook" false 0 ⟨1, []⟩).2).2
      rfl rfl
  · exact c1_transaction_ids.2.2 "guestbook" "" []

/-- C3: the claim says every transient error kind (connection loss,
connection closed, operation timeout, session expired) reconnects,
decrements the retry counter, and re-invokes the same operation with the
same arguments.  The code does so for three of the four kinds, but the
`OperationTimeoutError` branch re-invokes `function` WITHOUT `*args`: on
`c3op` (operation timeout on the first call, success on any retry that
passes the original argument) the executor never succeeds — it retries with
the empty argument list four times and exhausts its budget — whereas the
connection-loss branch on the analogous `c3opConnLoss` reconnects once,
re-invokes with the same argument and returns the result. -/
theorem c3_optimeout_drops_args :
    runWithTimeout c3op 5 ["/a/path"] ⟨[], 0⟩ =
      (.error .txnNoRetries, ⟨[["/a/path"], [], [], [], []], 1⟩) ∧
    c3op 1 ["/a/path"] = .ok 42 ∧ c3op 2 ["/a/path"] = .ok 42 ∧
    c3op 3 ["/a/path"] = .ok 42 ∧ c3op 4 ["/a/path"] = .ok 42 ∧
    runWithTimeout c3opConnLoss 5 ["/a/path"] ⟨[], 0⟩ =
      (.ok 42, ⟨[["/a/path"], ["/a/path"]], 1⟩) :=
  ⟨rfl, rfl, rfl, rfl, rfl, rfl⟩

/-- C8: the claim says that when the underlying create raises on every
attempt, `create_node` retries a bounded number of times (default 5) and
then fails with a transaction exception instead of letting the raw service
error escape.  In the code the `try` block of `create_node` has no `except`
clause, so with a persistent `NodeExistsError` the raw service error escapes
after a SINGLE underlying attempt (no allocator-level retry, no
`ZKTransactionException`); and with a persistent generic `ZookeeperError`
the five attempts that do happen are the Executor's own retries inside
`run_with_timeout`, not `create_node`'s loop, which never iterates twice. -/
theorem c8_create_node_raw_escape :
    createNode c8opNodeExists "/appscale/apps/guestbook/txids/tx0000000001/xg"
        DEFAULT_NUM_RETRIES ⟨[], 0⟩ =
      (.error (.escaped (.raised .nodeExists)),
        ⟨[["/appscale/apps/guestbook/txids/tx0000000001/xg"]], 0⟩) ∧
    createNode c8opZkErr "/appscale/apps/guestbook/txids/tx0000000001/xg"
        DEFAULT_NUM_RETRIES ⟨[], 0⟩ =
      (.error (.escaped .txnNoRetries),
        ⟨List.replicate 5 ["/appscale/apps/guestbook/txids/tx0000000001/xg"], 0⟩) :=
  ⟨rfl, rfl⟩

/-- C4: the claim says that after `notify_failure`, every remaining child of
the transaction node has been deleted and THEN the transaction node itself,
exactly once, children before parent.  The source (lines 866-868) issues
`delete_async(txpath)` INSIDE the loop over the children, once per child:
on a node with two children the delete trace contains `txpath` twice, and
the first `txpath` delete is issued before the second child's delete. -/
theorem c4_txpath_delete_in_loop :
    (notifyFailedTransaction "guestbook" c4state 7).2 =
      [getLockRootPath "guestbook" "k1",
        getTransactionPath "guestbook" 7 ++ PATH_SEPARATOR ++ TX_LOCK_PATH,
        getTransactionPath "guestbook" 7,
        getTransactionPath "guestbook" 7 ++ PATH_SEPARATOR ++ "ukey0000000000",
        getTransactionPath "guestbook" 7] ∧
    (notifyFailedTransaction "guestbook" c4state 7).2.count
      (getTransactionPath "guestbook" 7) = 2 :=
  ⟨rfl, rfl⟩

/-- C9: `check_transaction` tests blacklist membership before node
existence, so `release_lock` on a blacklisted transaction raises the
blacklist ("timed out") exception regardless of whether the transaction
node exists, and the "not valid" exception is raised only for a
non-blacklisted transaction whose node is missing. -/
theorem c9_blacklist_before_exists (appId : String) (s : AppState) (txid : Nat) :
    (txid ∈ s.blacklist →
      checkTransaction s txid = .error .timedOut ∧
      releaseLock appId s txid = (.error .timedOut, s)) ∧
    (txid ∉ s.blacklist → txid ∉ s.txNodes →
      checkTransaction s txid = .error .notValid ∧
      releaseLock appId s txid = (.error .notValid, s)) := by
  constructor
  · intro hb
    have hc : checkTransaction s txid = .error .timedOut := by
      rw [checkTransaction, if_pos hb]
    exact ⟨hc, by rw [releaseLock, hc]⟩
  · intro hb hn
    have hc : checkTransaction s txid = .error .notValid := by
      rw [checkTransaction, if_neg hb, if_neg hn]
    exact ⟨hc, by rw [releaseLock, hc]⟩

/-- Witness for C9: a transaction that is both blacklisted and still has a
node raises "timed out", and a fully absent transaction raises "not valid". -/
theorem c9_blacklist_before_exists_witness :
    ((9 : Nat) ∈ (⟨[], [9], [], [], [9], [], []⟩ : AppState).blacklist ∧
      checkTransaction ⟨[], [9], [], [], [9], [], []⟩ 9 = .error .timedOut ∧
      releaseLock "guestbook" ⟨[], [9], [], [], [9], [], []⟩ 9 =
        (.error .timedOut, ⟨[], [9], [], [], [9], [], []⟩)) ∧
    ((8 : Nat) ∉ (⟨[], [], [], [], [], [], []⟩ : AppState).blacklist ∧
      checkTransaction ⟨[], [], [], [], [], [], []⟩ 8 = .error .notValid ∧
      releaseLock "guestbook" ⟨[], [], [], [], [], [], []⟩ 8 =
        (.error .notValid, ⟨[], [], [], [], [], [], []⟩)) := by
  constructor
  · have h := (c9_blacklist_before_exists "guestbook" ⟨[], [9], [], [], [9], [], []⟩ 9).1
      (by decide)
    exact ⟨by decide, h.1, h.2⟩
  · have h := (c9_blacklist_before_exists "guestbook" ⟨[], [], [], [], [], [], []⟩ 8).2
      (by decide) (by decide)
    exact ⟨by decide, h.1, h.2⟩

/-- C10: `release_lock` on a transaction whose node exists, which is not
blacklisted, and whose `lockpath` child is missing returns `True` with the
state unchanged — the transaction node, its `xg` child and all other
children survive untouched. -/
theorem c10_release_missing_lockpath (appId : String) (s : AppState) (txid : Nat)
    (h1 : txid ∈ s.txNodes) (h2 : txid ∉ s.blacklist)
    (h3 : alookup txid s.lockLists = none) :
    releaseLock appId s txid = (.ok true, s) := by
  have hc : checkTransaction s txid = .ok true := by
    rw [checkTransaction, if_neg h2, if_pos h1]
  rw [releaseLock, hc, h3, if_neg h2]

/-- Witness for C10 on a transaction that still has an `xg` child, a `ukey`
child and a live lock root, but no `lockpath` child. -/
theorem c10_release_missing_lockpath_witness :
    releaseLock "guestbook"
        ⟨[(getLockRootPath "guestbook" "k1", getTransactionPath "guestbook" 7)], [7], [],
          [7], [], [(7, [⟨"ukey0000000000", "k1", 3⟩])], []⟩ 7 =
      (.ok true,
        ⟨[(getLockRootPath "guestbook" "k1", getTransactionPath "guestbook" 7)], [7], [],
          [7], [], [(7, [⟨"ukey0000000000", "k1", 3⟩])], []⟩) :=
  c10_release_missing_lockpath "guestbook" _ 7 (by decide) (by decide) rfl

/-- C6: on a live non-XG transaction holding the lock for `k1`, acquiring a
lock for a different key `k2` (whose lock root is not in the transaction's
`lockpath`) fails with the
"can not lock different root entity in non-cross-group transaction"
exception and leaves the state unchanged, while re-acquiring `k1` succeeds
idempotently with the state unchanged. -/
theorem c6_nonxg_cross_key (appId : String) (s : AppState) (txid : Nat) (k1 k2 : String)
    (l : List String)
    (hb : txid ∉ s.blacklist) (hl : alookup txid s.lockLists = some l)
    (h1 : getLockRootPath appId k1 ∈ l) (h2 : getLockRootPath appId k2 ∉ l)
    (hx : txid ∉ s.xgs) :
    acquireLock appId s txid k2 = (.error .nonXgViolation, s) ∧
    acquireLock appId s txid k1 = (.ok true, s) := by
  constructor
  · simp [acquireLock, hb, hl, h2, hx]
  · simp [acquireLock, hb, hl, h1]

/-- Witness for C6 at a concrete non-XG transaction holding `k1`. -/
theorem c6_nonxg_cross_key_witness :
    acquireLock "guestbook"
        ⟨[(getLockRootPath "guestbook" "k1", getTransactionPath "guestbook" 4)], [4],
          [(4, [getLockRootPath "guestbook" "k1"])], [], [], [], []⟩ 4 "k2" =
      (.error .nonXgViolation,
        ⟨[(getLockRootPath "guestbook" "k1", getTransactionPath "guestbook" 4)], [4],
          [(4, [getLockRootPath "guestbook" "k1"])], [], [], [], []⟩) ∧
    acquireLock "guestbook"
        ⟨[(getLockRootPath "guestbook" "k1", getTransactionPath "guestbook" 4)], [4],
          [(4, [getLockRootPath "guestbook" "k1"])], [], [], [], []⟩ 4 "k1" =
      (.ok true,
        ⟨[(getLockRootPath "guestbook" "k1", getTransactionPath "guestbook" 4)], [4],
          [(4, [getLockRootPath "guestbook" "k1"])], [], [], [], []⟩) :=
  c6_nonxg_cross_key "guestbook" _ 4 "k1" "k2" [getLockRootPath "guestbook" "k1"]
    (by decide) rfl (by decide) (by decide) (by decide)

/-- C7: when a second transaction `t2` contends for an entity-group key `k`
whose lock-root node was already created by `t1`, the creation attempt in
`acquire_additional_lock` hits `NodeExistsError` and (after the diagnostic
read of the owner, which mutates nothing) `acquire_lock` fails with the
"already another transaction using … lock" exception, leaving `t1`'s lock
node and its value in place. -/
theorem c7_lock_conflict (appId : String) (s : AppState) (t1 t2 : Nat) (k : String)
    (hheld : alookup (getLockRootPath appId k) s.locks = some (getTransactionPath appId t1))
    (hb : t2 ∉ s.blacklist) (hnl : alookup t2 s.lockLists = none) :
    acquireLock appId s t2 k = (.error .alreadyHeld, s) ∧
    alookup (getLockRootPath appId k) (acquireLock appId s t2 k).2.locks =
      some (getTransactionPath appId t1) := by
  have h : acquireLock appId s t2 k = (.error .alreadyHeld, s) := by
    simp [acquireLock, hb, hnl, acquireAdditionalLock, hheld]
  exact ⟨h, by rw [h]; exact hheld⟩

/-- Witness for C7: transaction 1 holds the lock on `k1`; transaction 2's
acquire fails with "already held" and the lock value still names
transaction 1's node. -/
theorem c7_lock_conflict_witness :
    acquireLock "guestbook"
        ⟨[(getLockRootPath "guestbook" "k1", getTransactionPath "guestbook" 1)], [1, 2],
          [(1, [getLockRootPath "guestbook" "k1"])], [], [], [], []⟩ 2 "k1" =
      (.error .alreadyHeld,
        ⟨[(getLockRootPath "guestbook" "k1", getTransactionPath "guestbook" 1)], [1, 2],
          [(1, [getLockRootPath "guestbook" "k1"])], [], [], [], []⟩) ∧
    alookup (getLockRootPath "guestbook" "k1")
        (acquireLock "guestbook"
          ⟨[(getLockRootPath "guestbook" "k1", getTransactionPath "guestbook" 1)], [1, 2],
            [(1, [getLockRootPath "guestbook" "k1"])], [], [], [], []⟩ 2 "k1").2.locks =
      some (getTransactionPath "guestbook" 1) :=
  c7_lock_conflict "guestbook" _ 1 2 "k1" rfl (by decide) rfl

theorem wf_parse_isSome {n : String} (h : wellFormedTxName n = true) :
    ∃ k, parseLong (lstripTx n) = some k := by
  rw [wellFormedTxName] at h
  split at h
  · rename_i ds heq
    rw [Bool.and_eq_true, Bool.not_eq_true'] at h
    obtain ⟨hne, hdig⟩ := h
    have hdrop : lstripTx n = ⟨ds⟩ := by
      apply str_ext
      show n.data.dropWhile (fun c => c == 't' || c == 'x') = ds
      rw [heq]
      show (['t', 'x'] ++ ds).dropWhile (fun c => c == 't' || c == 'x') = ds
      rw [dropWhile_append_all _ _ (by intro ch hch; fin_cases hch <;> decide)]
      cases hds : ds with
      | nil => rw [hds] at hne; simp at hne
      | cons z rest =>
        have hz : z.isDigit = true := by
          have := List.all_eq_true.mp hdig z (by rw [hds]; simp)
          exact this
        simp [List.dropWhile, isDigit_not_tx hz]
    rw [hdrop]
    rw [parseLong]
    have hne' : ¬ (ds.isEmpty = true) := by
      show ¬ ((⟨ds⟩ : String).data.isEmpty = true)
      simpa using hne
    rw [if_neg (by simpa using hne')]
    rw [if_pos (by simpa using hdig)]
    exact ⟨_, rfl⟩
  · exact absurd h (by simp)

/-- C5: the GC sweep calls `notify_failure` exactly for those `…/txids`
children whose name matches the `tx<digit>` regex and whose stored creation
timestamp `ts` satisfies `ts + TX_TIMEOUT < now` — in list order, with the
parsed numeric ID — and leaves every other child untouched (no call for
non-matching names or for matching names with `ts + TX_TIMEOUT ≥ now`).
The hypothesis restricts child names that match the regex to the shape the
coordinator itself creates (`tx` + digits). -/
theorem c5_gc_notifies_expired : ∀ (children : List (String × Nat)) (now : Nat),
    (∀ p ∈ children, matchesTxRe p.1 = true → wellFormedTxName p.1 = true) →
    executeGarbageCollection children now =
      .ok ((children.filter
          (fun p => matchesTxRe p.1 && decide (p.2 + TX_TIMEOUT < now))).map
        (fun p => (parseLong (lstripTx p.1)).getD 0)) := by
  intro children
  induction children with
  | nil => intro now _; rfl
  | cons p rest ih =>
    intro now h
    obtain ⟨name, ts⟩ := p
    rw [executeGarbageCollection]
    by_cases hm : matchesTxRe name = true
    · rw [if_pos hm]
      by_cases ht : ts + TX_TIMEOUT < now
      · rw [if_pos ht]
        obtain ⟨k, hk⟩ := wf_parse_isSome (h (name, ts) (by simp) hm)
        rw [hk, ih now (fun q hq => h q (by simp [hq]))]
        simp [List.filter_cons, hm, ht, hk]
      · rw [if_neg ht, ih now (fun q hq => h q (by simp [hq]))]
        simp [List.filter_cons, hm, ht]
    · rw [if_neg hm, ih now (fun q hq => h q (by simp [hq]))]
      simp [List.filter_cons, hm]

/-- Witness for C5: among `blacklist`, `validlist`, a fresh `tx0000000005`
and expired `tx0000000007`, `tx0000000009`, exactly the two expired
transactions are notified, in order, with parsed IDs. -/
theorem c5_gc_notifies_expired_witness :
    (∀ p ∈ [("blacklist", 0), ("validlist", 0), ("tx0000000005", 40),
        ("tx0000000007", 10), ("tx0000000009", 19)],
      matchesTxRe p.1 = true → wellFormedTxName p.1 = true) ∧
    executeGarbageCollection
        [("blacklist", 0), ("validlist", 0), ("tx0000000005", 40),
          ("tx0000000007", 10), ("tx0000000009", 19)] 50 =
      .ok [7, 9] := by
  refine ⟨by decide, ?_⟩
  have h := c5_gc_notifies_expired
    [("blacklist", 0), ("validlist", 0), ("tx0000000005", 40),
      ("tx0000000007", 10), ("tx0000000009", 19)] 50 (by decide)
  rw [h]
  rfl

theorem lockListInv_iff (s : AppState) :
    lockListInv s = true ↔ lockEntriesOk s.xgs s.lockLists := by
  rw [lockListInv, List.all_eq_true, lockEntriesOk]
  constructor <;> intro h q hq <;> have hx := h q hq <;>
    simpa using hx

theorem deleteChild_fields (s : AppState) (t : Nat) (c : String) :
    (deleteChild s t c = { s with lockLists := aremove t s.lockLists }) ∨
    (deleteChild s t c = { s with xgs := lrem t s.xgs }) ∨
    (∃ uk, deleteChild s t c = { s with ukeys := uk }) := by
  rw [deleteChild]
  split
  · exact Or.inl rfl
  · split
    · exact Or.inr (Or.inl rfl)
    · exact Or.inr (Or.inr ⟨_, rfl⟩)

theorem PQ_deleteChild (t : Nat) (s : AppState) (c : String)
    (hP : lockEntriesOk s.xgs s.lockLists) (hQ : noEntriesFor t s.lockLists) :
    lockEntriesOk (deleteChild s t c).xgs (deleteChild s t c).lockLists ∧
    noEntriesFor t (deleteChild s t c).lockLists := by
  rcases deleteChild_fields s t c with h | h | ⟨uk, h⟩ <;> rw [h]
  · constructor
    · intro q hq
      have hmem := mem_aremove hq
      exact ⟨(hP q hmem.1).1, (hP q hmem.1).2⟩
    · intro q hq
      exact (mem_aremove hq).2
  · constructor
    · intro q hq
      refine ⟨(hP q hq).1, ?_⟩
      rcases (hP q hq).2 with hx | h1
      · exact Or.inl (mem_lrem.mpr ⟨hx, hQ q hq⟩)
      · exact Or.inr h1
    · exact hQ
  · exact ⟨hP, hQ⟩

theorem tryDeleteTxNode_fields (s : AppState) (t : Nat) :
    (tryDeleteTxNode s t).lockLists = s.lockLists ∧ (tryDeleteTxNode s t).xgs = s.xgs := by
  rw [tryDeleteTxNode]
  split <;> exact ⟨rfl, rfl⟩

theorem PQ_deleteChildrenLoop (appId : String) (t : Nat) :
    ∀ (names : List String) (s : AppState),
    lockEntriesOk s.xgs s.lockLists → noEntriesFor t s.lockLists →
    lockEntriesOk (deleteChildrenLoop appId t names s).1.xgs
        (deleteChildrenLoop appId t names s).1.lockLists ∧
      noEntriesFor t (deleteChildrenLoop appId t names s).1.lockLists := by
  intro names
  induction names with
  | nil => intro s hP hQ; exact ⟨hP, hQ⟩
  | cons c rest ih =>
    intro s hP hQ
    have h1 := PQ_deleteChild t s c hP hQ
    have h2 := tryDeleteTxNode_fields (deleteChild s t c) t
    have hP2 : lockEntriesOk (tryDeleteTxNode (deleteChild s t c) t).xgs
        (tryDeleteTxNode (deleteChild s t c) t).lockLists := by
      rw [h2.1, h2.2]; exact h1.1
    have hQ2 : noEntriesFor t (tryDeleteTxNode (deleteChild s t c) t).lockLists := by
      rw [h2.1]; exact h1.2
    exact ih (tryDeleteTxNode (deleteChild s t c) t) hP2 hQ2

theorem PQ_foldDeleteChild (t : Nat) : ∀ (names : List String) (s : AppState),
    lockEntriesOk s.xgs s.lockLists → noEntriesFor t s.lockLists →
    lockEntriesOk (names.foldl (fun st c => deleteChild st t c) s).xgs
        (names.foldl (fun st c => deleteChild st t c) s).lockLists ∧
      noEntriesFor t (names.foldl (fun st c => deleteChild st t c) s).lockLists := by
  intro names
  induction names with
  | nil => intro s hP hQ; exact ⟨hP, hQ⟩
  | cons c rest ih =>
    intro s hP hQ
    have h1 := PQ_deleteChild t s c hP hQ
    exact ih (deleteChild s t c) h1.1 h1.2

theorem inv_acquireAdditionalLock_true (appId : String) (s : AppState) (txid : Nat)
    (key : String) (h : lockListInv s = true) :
    lockListInv (acquireAdditionalLock appId s txid key true).2 = true := by
  rw [lockListInv_iff] at h ⊢
  simp only [acquireAdditionalLock]
  split
  · exact h
  · split
    · split
      · exact h
      · intro q hq
        rcases mem_aset hq with hq | ⟨hq, _⟩
        · subst hq
          exact ⟨by simp [MAX_GROUPS_FOR_XG], Or.inr (by simp)⟩
        · exact h q hq
    · rename_i hfalse
      exact absurd trivial hfalse

theorem inv_acquireAdditionalLock_false (appId : String) (s : AppState) (txid : Nat)
    (key : String) (hx : txid ∈ s.xgs) (h : lockListInv s = true) :
    lockListInv (acquireAdditionalLock appId s txid key false).2 = true := by
  rw [lockListInv_iff] at h ⊢
  simp only [acquireAdditionalLock]
  split
  · exact h
  · split
    · rename_i htrue
      exact absurd htrue (by simp)
    · split
      · exact h
      · split
        · exact h
        · rename_i lockList hsome hlen
          intro q hq
          rcases mem_aset hq with hq | ⟨hq, _⟩
          · subst hq
            refine ⟨?_, Or.inl hx⟩
            have : ¬ MAX_GROUPS_FOR_XG ≤ lockList.length := hlen
            simp only [List.length_append, List.length_cons, List.length_nil]
            omega
          · exact h q hq

theorem inv_acquireLock (appId : String) (s : AppState) (txid : Nat) (key : String)
    (h : lockListInv s = true) :
    lockListInv (acquireLock appId s txid key).2 = true := by
  simp only [acquireLock]
  split
  · exact h
  · split
    · split
      · exact h
      · split
        · rename_i hxg
          exact inv_acquireAdditionalLock_false appId s txid key hxg h
        · exact h
    · exact inv_acquireAdditionalLock_true appId s txid key h

theorem inv_releaseLock (appId : String) (s : AppState) (txid : Nat)
    (h : lockListInv s = true) :
    lockListInv (releaseLock appId s txid).2 = true := by
  simp only [releaseLock]
  split
  · exact h
  · split
    · split
      · exact h
      · exact h
    · rename_i lockList hl
      rw [lockListInv_iff] at h ⊢
      split
      · rename_i hxg
        refine (PQ_foldDeleteChild txid _ _ ?_ ?_).1
        · intro q hq
          have hmem := mem_aremove hq
          refine ⟨(h q hmem.1).1, ?_⟩
          rcases (h q hmem.1).2 with hx | h1
          · exact Or.inl (mem_lrem.mpr ⟨hx, hmem.2⟩)
          · exact Or.inr h1
        · intro q hq
          exact (mem_aremove hq).2
      · refine (PQ_foldDeleteChild txid _ _ ?_ ?_).1
        · intro q hq
          have hmem := mem_aremove hq
          exact ⟨(h q hmem.1).1, (h q hmem.1).2⟩
        · intro q hq
          exact (mem_aremove hq).2

theorem nfPhase1_lockLists (appId : String) (s : AppState) (txid : Nat) :
    (nfPhase1 appId s txid).lockLists = s.lockLists := by
  rw [nfPhase1]
  split <;> rfl

theorem nfPhase1_xgs (appId : String) (s : AppState) (txid : Nat) :
    (nfPhase1 appId s txid).xgs = s.xgs := by
  rw [nfPhase1]
  split <;> rfl

theorem nfPhase3_fst_lockLists (appId : String) (s : AppState) (txid : Nat) :
    (nfPhase3 appId s txid).1.lockLists = s.lockLists := by
  rw [nfPhase3]
  split <;> rfl

theorem nfPhase3_fst_xgs (appId : String) (s : AppState) (txid : Nat) (x : Nat)
    (hx : x ≠ txid) : x ∈ (nfPhase3 appId s txid).1.xgs ↔ x ∈ s.xgs := by
  rw [nfPhase3]
  split
  · show x ∈ lrem txid s.xgs ↔ x ∈ s.xgs
    rw [mem_lrem]
    exact ⟨fun hh => hh.1, fun hh => ⟨hh, hx⟩⟩
  · exact Iff.rfl

theorem inv_notify (appId : String) (s : AppState) (txid : Nat)
    (h : lockListInv s = true) :
    lockListInv (notifyFailedTransaction appId s txid).1 = true := by
  rw [lockListInv_iff] at h ⊢
  show lockEntriesOk
    (deleteChildrenLoop appId txid
      (childNames (nfPhase3 appId (nfPhase2 (nfPhase1 appId s txid) txid) txid).1 txid)
      (nfPhase3 appId (nfPhase2 (nfPhase1 appId s txid) txid) txid).1).1.xgs
    (deleteChildrenLoop appId txid
      (childNames (nfPhase3 appId (nfPhase2 (nfPhase1 appId s txid) txid) txid).1 txid)
      (nfPhase3 appId (nfPhase2 (nfPhase1 appId s txid) txid) txid).1).1.lockLists
  have hLL : (nfPhase3 appId (nfPhase2 (nfPhase1 appId s txid) txid) txid).1.lockLists =
      s.lockLists := by
    rw [nfPhase3_fst_lockLists]
    show (nfPhase1 appId s txid).lockLists = s.lockLists
    exact nfPhase1_lockLists appId s txid
  have hXg : ∀ x, x ≠ txid →
      (x ∈ (nfPhase3 appId (nfPhase2 (nfPhase1 appId s txid) txid) txid).1.xgs ↔
        x ∈ s.xgs) := by
    intro x hx
    rw [nfPhase3_fst_xgs _ _ _ x hx]
    show x ∈ (nfPhase1 appId s txid).xgs ↔ x ∈ s.xgs
    rw [nfPhase1_xgs]
  by_cases hcase : alookup txid s.lockLists = none
  · have hQ : noEntriesFor txid
        (nfPhase3 appId (nfPhase2 (nfPhase1 appId s txid) txid) txid).1.lockLists := by
      rw [hLL]
      exact alookup_eq_none hcase
    have hP : lockEntriesOk
        (nfPhase3 appId (nfPhase2 (nfPhase1 appId s txid) txid) txid).1.xgs
        (nfPhase3 appId (nfPhase2 (nfPhase1 appId s txid) txid) txid).1.lockLists := by
      intro q hq
      have hq' : q ∈ s.lockLists := by rw [hLL] at hq; exact hq
      refine ⟨(h q hq').1, ?_⟩
      rcases (h q hq').2 with hx | h1
      · exact Or.inl ((hXg q.1 (hQ q hq)).mpr hx)
      · exact Or.inr h1
    exact (PQ_deleteChildrenLoop appId txid _ _ hP hQ).1
  · rcases Option.ne_none_iff_exists'.mp hcase with ⟨l, hl⟩
    have hl3 : alookup txid
        (nfPhase3 appId (nfPhase2 (nfPhase1 appId s txid) txid) txid).1.lockLists =
        some l := by rw [hLL]; exact hl
    have hnames : childNames
        (nfPhase3 appId (nfPhase2 (nfPhase1 appId s txid) txid) txid).1 txid =
        TX_LOCK_PATH ::
          ((if txid ∈ (nfPhase3 appId (nfPhase2 (nfPhase1 appId s txid) txid) txid).1.xgs
              then [xgNodeName] else []) ++
            ((alookup txid
              (nfPhase3 appId (nfPhase2 (nfPhase1 appId s txid) txid) txid).1.ukeys).getD
              []).map (fun u => u.name)) := by
      rw [childNames, hl3]
      rfl
    rw [hnames]
    have hstep : ∀ (rest : List String) (st : AppState),
        (deleteChildrenLoop appId txid (TX_LOCK_PATH :: rest) st).1 =
        (deleteChildrenLoop appId txid rest
          (tryDeleteTxNode (deleteChild st txid TX_LOCK_PATH) txid)).1 :=
      fun rest st => rfl
    rw [hstep]
    have hdc : deleteChild
        (nfPhase3 appId (nfPhase2 (nfPhase1 appId s txid) txid) txid).1 txid TX_LOCK_PATH =
        { (nfPhase3 appId (nfPhase2 (nfPhase1 appId s txid) txid) txid).1 with
            lockLists := aremove txid
              (nfPhase3 appId (nfPhase2 (nfPhase1 appId s txid) txid) txid).1.lockLists } := by
      rw [deleteChild, if_pos rfl]
    have htd := tryDeleteTxNode_fields
      (deleteChild (nfPhase3 appId (nfPhase2 (nfPhase1 appId s txid) txid) txid).1 txid
        TX_LOCK_PATH) txid
    have hQ : noEntriesFor txid
        (tryDeleteTxNode
          (deleteChild (nfPhase3 appId (nfPhase2 (nfPhase1 appId s txid) txid) txid).1 txid
            TX_LOCK_PATH) txid).lockLists := by
      rw [htd.1, hdc]
      intro q hq
      exact (mem_aremove hq).2
    have hP : lockEntriesOk
        (tryDeleteTxNode
          (deleteChild (nfPhase3 appId (nfPhase2 (nfPhase1 appId s txid) txid) txid).1 txid
            TX_LOCK_PATH) txid).xgs
        (tryDeleteTxNode
          (deleteChild (nfPhase3 appId (nfPhase2 (nfPhase1 appId s txid) txid) txid).1 txid
            TX_LOCK_PATH) txid).lockLists := by
      rw [htd.1, htd.2, hdc]
      intro q hq
      have hmem := mem_aremove hq
      have hq' : q ∈ s.lockLists := by rw [← hLL]; exact hmem.1
      refine ⟨(h q hq').1, ?_⟩
      rcases (h q hq').2 with hx | h1
      · exact Or.inl ((hXg q.1 hmem.2).mpr hx)
      · exact Or.inr h1
    exact (PQ_deleteChildrenLoop appId txid _ _ hP hQ).1

theorem inv_registerUpdatedKey (appId : String) (s : AppState) (cur tgt : Nat)
    (key : String) (h : lockListInv s = true) :
    lockListInv (registerUpdatedKey appId s cur tgt key).2 = true := by
  simp only [registerUpdatedKey]
  split
  · exact h
  · split
    · exact h
    · exact h

theorem inv_applyBeginTx (s : AppState) (txid : Nat) (isXg : Bool)
    (h : lockListInv s = true) :
    lockListInv (applyBeginTx s txid isXg) = true := by
  rw [lockListInv_iff] at h ⊢
  intro q hq
  have hq' : q ∈ s.lockLists := hq
  refine ⟨(h q hq').1, ?_⟩
  rcases (h q hq').2 with hx | h1
  · left
    show q.1 ∈ (if isXg then txid :: s.xgs else s.xgs)
    split
    · exact List.mem_cons_of_mem _ hx
    · exact hx
  · exact Or.inr h1

theorem inv_reachable (appId : String) (s : AppState) (h : Reachable appId s) :
    lockListInv s = true := by
  induction h with
  | init => rfl
  | beginTx s txid isXg _ ih => exact inv_applyBeginTx s txid isXg ih
  | acquire s txid key _ ih => exact inv_acquireLock appId s txid key ih
  | release s txid _ ih => exact inv_releaseLock appId s txid ih
  | register s cur tgt key _ ih => exact inv_registerUpdatedKey appId s cur tgt key ih
  | notify s txid _ ih => exact inv_notify appId s txid ih

/-- C2: in every state reachable through the coordinator's operations, each
transaction's `lockpath` value splits into at most `MAX_GROUPS_FOR_XG = 5`
lock-root paths, and into exactly 1 for a transaction without an `xg` child
(`lockListInv`); and concretely, on an XG transaction, five successive
`acquire_lock` calls with distinct keys all succeed, while the sixth fails
with the "too many groups for this XG transaction" exception, the lock list
then holding exactly the five acquired lock roots. -/
theorem c2_lockpath_bound :
    (∀ (appId : String) (s : AppState), Reachable appId s → lockListInv s = true) ∧
    ((acquireLock "app" c2s0 1 "k1").1 = .ok true ∧
      (acquireLock "app" c2s1 1 "k2").1 = .ok true ∧
      (acquireLock "app" c2s2 1 "k3").1 = .ok true ∧
      (acquireLock "app" c2s3 1 "k4").1 = .ok true ∧
      (acquireLock "app" c2s4 1 "k5").1 = .ok true ∧
      (acquireLock "app" c2s5 1 "k6").1 = .error .tooManyGroups ∧
      alookup 1 c2s5.lockLists =
        some [getLockRootPath "app" "k1", getLockRootPath "app" "k2",
          getLockRootPath "app" "k3", getLockRootPath "app" "k4",
          getLockRootPath "app" "k5"]) :=
  ⟨inv_reachable, rfl, rfl, rfl, rfl, rfl, rfl, rfl⟩

/-- Witness for C2: the state after the five XG acquisitions is reachable
and satisfies the bound. -/
theorem c2_lockpath_bound_witness : lockListInv c2s5 = true :=
  c2_lockpath_bound.1 "app" c2s5
    (.acquire c2s4 1 "k5" (.acquire c2s3 1 "k4" (.acquire c2s2 1 "k3"
      (.acquire c2s1 1 "k2" (.acquire c2s0 1 "k1" (.beginTx initAppState 1 true .init))))))
